import Mathlib

set_option maxRecDepth 100000

/-!
Verification of the CRM client adapter (`utils/CRM-client.js`).

The development shallowly embeds the JavaScript source: JavaScript values are
modelled by `JsValue`, runtime exceptions by `Except JsError`, and each method
of `CRMClient` becomes a Lean function translated clause by clause from the
source.  The multipart batch-response extraction, which the source performs
with a `RegExp`, is embedded as an explicit backtracking matcher over the
sequence of atoms of that regular expression, together with a relational
semantics used to prove what the match returns.
-/

namespace CRM

/-- Model of a JavaScript value as it can occur in this client: the JSON
values, `undefined`, `Date` objects produced by the reviver (carrying their
source string), and a pending `Promise` object (relevant because `doDelete`
forgets to `await`).  Object fields are kept in insertion order, as
`Object.keys` enumerates string keys of these objects. -/
inductive JsValue where
  | undefined : JsValue
  | null : JsValue
  | bool : Bool → JsValue
  | num : Int → JsValue
  | str : String → JsValue
  | arr : List JsValue → JsValue
  | obj : List (String × JsValue) → JsValue
  | date : String → JsValue
  | promise : JsValue
deriving Repr

/-- A thrown JavaScript exception. -/
inductive JsError where
  | typeError : String → JsError
  | syntaxError : String → JsError
  | newError : String → JsError
deriving Repr, DecidableEq

/-- The result shape produced by `doFetch`: HTTP status plus parsed content. -/
structure DecodedResult where
  status : Nat
  content : JsValue
deriving Repr

/-- JavaScript truthiness of a modelled value. -/
def jsTruthy : JsValue → Bool
  | .undefined => false
  | .null => false
  | .bool b => b
  | .num n => n != 0
  | .str s => s != ""
  | .arr _ => true
  | .obj _ => true
  | .date _ => true
  | .promise => true

/-- JavaScript `String(v)` conversion for the modelled values (used by
`new Error(v)` and template literals). -/
def jsToString : JsValue → String
  | .undefined => "undefined"
  | .null => "null"
  | .bool b => if b then "true" else "false"
  | .num n => toString n
  | .str s => s
  | .arr _ => ""
  | .obj _ => "[object Object]"
  | .date s => s
  | .promise => "[object Promise]"

/-- Property read `v[key]`: throws a `TypeError` on `undefined`/`null`,
looks the key up on objects, and yields `undefined` on the other values
(none of the property names read by this client exists on a string, number,
array or pending `Promise`). -/
def jsProp (v : JsValue) (key : String) : Except JsError JsValue :=
  match v with
  | .undefined => .error (.typeError ("Cannot read properties of undefined (reading " ++ key ++ ")"))
  | .null => .error (.typeError ("Cannot read properties of null (reading " ++ key ++ ")"))
  | .obj fields => .ok ((fields.lookup key).getD .undefined)
  | _ => .ok .undefined

/-- Strict equality `v === s` against a string literal: true exactly when `v`
is the same string. -/
def jsStrictEqStr (v : JsValue) (s : String) : Bool :=
  match v with
  | .str t => t == s
  | _ => false

/-- Strict equality `v === n` against a number literal. -/
def jsStrictEqNum (v : JsValue) (n : Int) : Bool :=
  match v with
  | .num m => m == n
  | _ => false

/-- First index (if any) at which `needle` occurs in `hay`. -/
def idxOfList (needle : List Char) : List Char → Option Nat
  | [] => if needle.isPrefixOf ([] : List Char) then some 0 else none
  | c :: rest =>
    if needle.isPrefixOf (c :: rest) then some 0
    else (idxOfList needle rest).map (· + 1)

/-- JavaScript `hay.includes(needle)` for strings. -/
def strIncl (hay needle : String) : Bool :=
  (idxOfList needle.data hay.data).isSome

/-- JavaScript `hay.indexOf(needle)` for strings; only consulted by the client
after an `includes` check, so the absent case (JavaScript's `-1`) is mapped to
`0` and never reached. -/
def strIdxOf (hay needle : String) : Nat :=
  (idxOfList needle.data hay.data).getD 0

/-- Method call `v.includes(needle)`: substring test on strings, SameValueZero
element test on arrays (only ever compared against a string here), and a
`TypeError` on every value with no `includes` method. -/
def jsIncludes (v : JsValue) (needle : String) : Except JsError Bool :=
  match v with
  | .str s => .ok (strIncl s needle)
  | .arr xs => .ok (xs.any fun x => match x with | .str t => t == needle | _ => false)
  | _ => .error (.typeError "includes is not a function")

/-! Property-name normalization (`getNormalizedPropertyName`,
`parsePrefixedEntity`, `processGetResponse`). -/

/-- Annotation suffix `@OData.Community.Display.V1.FormattedValue`. -/
def FORMATTED_VALUE : String := "@OData.Community.Display.V1.FormattedValue"

/-- Annotation suffix `@Microsoft.Dynamics.CRM.lookuplogicalname`. -/
def LOGICAL_NAME : String := "@Microsoft.Dynamics.CRM.lookuplogicalname"

/-- Annotation suffix `@Microsoft.Dynamics.CRM.associatednavigationproperty`. -/
def NAVIGATION_PROPERTY : String := "@Microsoft.Dynamics.CRM.associatednavigationproperty"

/-- Translation of `CRMClient.getNormalizedPropertyName`.  The JavaScript
variables `index` and `suffix` start `undefined` and are (re)assigned by three
successive `if` blocks; the final ternary guard `(index && suffix)` is falsy
both when the variables were never assigned and when the assigned `index` is
the number `0`, in which case the original name is returned. -/
def getNormalizedPropertyName (propertyName : String) : String :=
  let ixsuf : Option (Nat × String) := none
  let ixsuf := if strIncl propertyName FORMATTED_VALUE then
      some (strIdxOf propertyName FORMATTED_VALUE, "_formatted") else ixsuf
  let ixsuf := if strIncl propertyName LOGICAL_NAME then
      some (strIdxOf propertyName LOGICAL_NAME, "_logical") else ixsuf
  let ixsuf := if strIncl propertyName NAVIGATION_PROPERTY then
      some (strIdxOf propertyName NAVIGATION_PROPERTY, "_navigationproperty") else ixsuf
  match ixsuf with
  | some (index, suffix) =>
    if index ≠ 0 then propertyName.take index ++ suffix else propertyName
  | none => propertyName

/-- Assignment `object[k] = v` on an object's field list: an existing key keeps
its position and gets the new value, a new key is appended. -/
def setFieldList (fields : List (String × JsValue)) (k : String) (v : JsValue) :
    List (String × JsValue) :=
  if fields.any (fun kv => kv.1 == k) then
    fields.map (fun kv => if kv.1 == k then (k, v) else kv)
  else fields ++ [(k, v)]

/-- The field list built by `parsePrefixedEntity`'s `forEach` loop: each key is
normalized and assigned into the fresh `normalizedObject` in order. -/
def normFields (fields : List (String × JsValue)) : List (String × JsValue) :=
  fields.foldl (fun acc kv => setFieldList acc (getNormalizedPropertyName kv.1) kv.2) []

/-- Own enumerable string-keyed properties, as `Object.keys`/indexing see
them: an object's fields, a string's characters under index keys, an array's
elements under index keys, and nothing for the remaining non-null values. -/
def jsOwnFields : JsValue → List (String × JsValue)
  | .obj fields => fields
  | .str s => s.data.enum.map (fun ic => (toString ic.1, .str (String.singleton ic.2)))
  | .arr xs => xs.enum.map (fun ix => (toString ix.1, ix.2))
  | _ => []

/-- Translation of `CRMClient.parsePrefixedEntity`: builds a fresh object
whose keys are the normalized property names.  `Object.keys` raises a
`TypeError` on `undefined` and `null`. -/
def parsePrefixedEntity (data : JsValue) : Except JsError JsValue :=
  match data with
  | .undefined => .error (.typeError "Cannot convert undefined to object")
  | .null => .error (.typeError "Cannot convert null to object")
  | d => .ok (.obj (normFields (jsOwnFields d)))

/-- Object update `json.value = v` (a no-op on non-objects, where JavaScript
silently discards the assignment outside strict mode). -/
def jsSetField (json : JsValue) (k : String) (v : JsValue) : JsValue :=
  match json with
  | .obj fields => .obj (setFieldList fields k v)
  | other => other

/-- Translation of `CRMClient.processGetResponse`.  Note the very first step
reads `json["@odata.context"].includes(...)`: when the context key is absent
the property read yields `undefined` and the `includes` call raises a
`TypeError`. -/
def processGetResponse (json : JsValue) : Except JsError JsValue := do
  let ctx ← jsProp json "@odata.context"
  let isEntity ← jsIncludes ctx "/$entity"
  if isEntity then
    parsePrefixedEntity json
  else do
    let v ← jsProp json "value"
    if jsTruthy v then
      match v with
      | .arr xs => do
        let xs' ← xs.mapM parsePrefixedEntity
        pure (jsSetField json "value" (.arr xs'))
      | _ => .error (.typeError "json.value.map is not a function")
    else
      pure json

/-! Date reviver and JSON parsing (`dateReviver`, the `JSON.parse` call in
`doFetch`). -/

/-- Names of the members of the JavaScript `Math` object (ECMA-262, the
`Math` function properties and value properties).  `isNaN` is not among them:
`isNaN` exists on the global object and on `Number`, so the expression
`Math.isNaN` evaluates to `undefined`. -/
def mathMemberNames : List String :=
  ["E", "LN10", "LN2", "LOG10E", "LOG2E", "PI", "SQRT1_2", "SQRT2",
   "abs", "acos", "acosh", "asin", "asinh", "atan", "atan2", "atanh",
   "cbrt", "ceil", "clz32", "cos", "cosh", "exp", "expm1", "floor",
   "fround", "hypot", "imul", "log", "log10", "log1p", "log2", "max",
   "min", "pow", "random", "round", "sign", "sin", "sinh", "sqrt",
   "tan", "tanh", "trunc"]

/-- Simplified model of `Date.parse` producing a valid date: strings with an
ISO-like `YYYY-MM-DD` shape, numbers and `Date` objects parse; other values do
not.  Only consulted on the branch of `dateReviver` that requires `Math.isNaN`
to exist, which it does not, so no theorem depends on this approximation. -/
def dateParseValid : JsValue → Bool
  | .str s =>
    match s.data with
    | y1 :: y2 :: y3 :: y4 :: d1 :: m1 :: m2 :: d2 :: dd1 :: dd2 :: _ =>
      y1.isDigit && y2.isDigit && y3.isDigit && y4.isDigit && d1 = '-' &&
        m1.isDigit && m2.isDigit && d2 = '-' && dd1.isDigit && dd2.isDigit
    | _ => false
  | .num _ => true
  | .date _ => true
  | _ => false

/-- Translation of `CRMClient.dateReviver`.  The source calls
`Math.isNaN(Date.parse(value))`; since `isNaN` is not a member of `Math`
(see `mathMemberNames`), that call is an invocation of `undefined` and raises
a `TypeError` before any date logic runs.  The intended logic (return the
value unchanged when it is not a valid date, otherwise a `Date`) sits on the
unreachable branch. -/
def dateReviver (_key : String) (value : JsValue) : Except JsError JsValue :=
  if mathMemberNames.contains "isNaN" then
    if !dateParseValid value then
      .ok value
    else
      .ok (.date (jsToString value))
  else
    .error (.typeError "Math.isNaN is not a function")

/-- Characters treated as insignificant whitespace by the JSON grammar. -/
def jsonWs (c : Char) : Bool :=
  c = ' ' || c = '\t' || c = '\n' || c = '\r'

/-- Lexes a JSON string body after the opening quote; returns the characters
and the rest of the input.  Escape sequences are kept simplified (the escaped
character is taken literally, `\u` sequences keep their hex digits): no claim
depends on the decoded content of string escapes. -/
def jsonLexStr : Nat → List Char → Option (List Char × List Char)
  | 0, _ => none
  | _, [] => none
  | fuel + 1, c :: rest =>
    if c = '"' then some ([], rest)
    else if c = '\\' then
      match rest with
      | [] => none
      | e :: rest' => (jsonLexStr fuel rest').map (fun p => (e :: p.1, p.2))
    else (jsonLexStr fuel rest).map (fun p => (c :: p.1, p.2))

mutual

/-- Recursive-descent JSON value parser (fuel-indexed).  Numbers are
represented by the integer value of their leading integer part; fractional
and exponent characters are consumed but not interpreted, which is adequate
here because no claim inspects numeric magnitudes. -/
def jsonParseVal : Nat → List Char → Option (JsValue × List Char)
  | 0, _ => none
  | fuel + 1, cs =>
    match cs.dropWhile jsonWs with
    | [] => none
    | c :: rest =>
      if c = 'n' then
        if ['u', 'l', 'l'].isPrefixOf rest then some (.null, rest.drop 3) else none
      else if c = 't' then
        if ['r', 'u', 'e'].isPrefixOf rest then some (.bool true, rest.drop 3) else none
      else if c = 'f' then
        if ['a', 'l', 's', 'e'].isPrefixOf rest then some (.bool false, rest.drop 4) else none
      else if c = '"' then
        (jsonLexStr (fuel + 1) rest).map (fun p => (.str (String.mk p.1), p.2))
      else if c = '-' || c.isDigit then
        let digits := rest.takeWhile Char.isDigit
        let lead := if c = '-' then [] else [c]
        if (lead ++ digits).isEmpty then none
        else
          let n : Int := (String.mk (lead ++ digits)).toNat!
          let n := if c = '-' then -n else n
          let rest' := (rest.drop digits.length).dropWhile
            (fun d => d.isDigit || d = '.' || d = 'e' || d = 'E' || d = '+' || d = '-')
          some (.num n, rest')
      else if c = '[' then
        match rest.dropWhile jsonWs with
        | ']' :: rest' => some (.arr [], rest')
        | _ => (jsonParseElems fuel rest).map (fun p => (.arr p.1, p.2))
      else if c = '{' then
        match rest.dropWhile jsonWs with
        | '}' :: rest' => some (.obj [], rest')
        | _ => (jsonParseMembers fuel rest).map (fun p => (.obj p.1, p.2))
      else none

/-- Parses the comma-separated elements of a JSON array up to `]`. -/
def jsonParseElems : Nat → List Char → Option (List JsValue × List Char)
  | 0, _ => none
  | fuel + 1, cs => do
    let (v, rest) ← jsonParseVal fuel cs
    match rest.dropWhile jsonWs with
    | ',' :: rest' => (jsonParseElems fuel rest').map (fun p => (v :: p.1, p.2))
    | ']' :: rest' => some ([v], rest')
    | _ => none

/-- Parses the comma-separated members of a JSON object up to `}`. -/
def jsonParseMembers : Nat → List Char → Option (List (String × JsValue) × List Char)
  | 0, _ => none
  | fuel + 1, cs =>
    match cs.dropWhile jsonWs with
    | '"' :: rest => do
      let (key, rest) ← jsonLexStr (fuel + 1) rest
      match rest.dropWhile jsonWs with
      | ':' :: rest' => do
        let (v, rest'') ← jsonParseVal fuel rest'
        match rest''.dropWhile jsonWs with
        | ',' :: rest3 =>
          (jsonParseMembers fuel rest3).map (fun p => ((String.mk key, v) :: p.1, p.2))
        | '}' :: rest3 => some ([(String.mk key, v)], rest3)
        | _ => none
      | _ => none
    | _ => none

end

/-- `JSON.parse` syntax phase: parses the whole text as one JSON value with
nothing but whitespace after it. -/
def jsonParse (text : String) : Option JsValue :=
  match jsonParseVal (text.length + 1) text.data with
  | some (v, rest) => if (rest.dropWhile jsonWs).isEmpty then some v else none
  | none => none

mutual

/-- The `InternalizeJSONProperty` walk of `JSON.parse(text, reviver)`:
children are revived bottom-up and the reviver is applied to every value.
Since `dateReviver` raises on its first invocation, the walk raises for every
parsed value. -/
def reviveWalk (key : String) : JsValue → Except JsError JsValue
  | .obj fields => do
    let fields' ← reviveFields fields
    dateReviver key (.obj fields')
  | .arr xs => do
    let xs' ← reviveElems 0 xs
    dateReviver key (.arr xs')
  | v => dateReviver key v

/-- Revives an object's members in order; a member revived to `undefined` is
deleted. -/
def reviveFields : List (String × JsValue) → Except JsError (List (String × JsValue))
  | [] => .ok []
  | (k, v) :: rest => do
    let v' ← reviveWalk k v
    let rest' ← reviveFields rest
    match v' with
    | .undefined => pure rest'
    | _ => pure ((k, v') :: rest')

/-- Revives an array's elements under their index keys. -/
def reviveElems (i : Nat) : List JsValue → Except JsError (List JsValue)
  | [] => .ok []
  | x :: rest => do
    let x' ← reviveWalk (toString i) x
    let rest' ← reviveElems (i + 1) rest
    pure (x' :: rest')

end

/-- `JSON.parse(text, this.dateReviver)` as invoked by `doFetch`.  The
argument is `Option String` because the batch branch can leave the JavaScript
variable `text` holding `undefined`, which `JSON.parse` coerces to the
non-JSON text `"undefined"`. -/
def jsonParseReviver (text : Option String) : Except JsError JsValue :=
  let s := match text with
    | none => "undefined"
    | some s => s
  match jsonParse s with
  | none => .error (.syntaxError ("Unexpected token in JSON: " ++ s))
  | some v => reviveWalk "" v

/-! Batch-response extraction (`extractBatchData`).  The source builds the
regular expression

  `--batchresponse_[-0-9a-fA-F]+\s` `(?:[-\w\s\/\.;:=]+\s)\s`
  `HTTP\/\d\.\d\s\d+\s[-\s\w]+\s` `(?:[-\w\s\/\.;:=]+\s)\s`
  `(\{.*\})\s+` `--batchresponse_[-0-9a-fA-F]+--`

and returns the first capture group of `textContent.match(...)` (or
`undefined` when there is no match).  Every quantifier of this pattern ranges
over a single-character class, so the expression is embedded as a sequence of
atoms (literal, one-of-class, class`+`, class`*`) executed by a backtracking
matcher with JavaScript semantics: candidate start positions are tried left to
right and greedy quantifiers consume as much as possible first. -/

/-- Character class `[-0-9a-fA-F]` of the boundary UUID. -/
def hexDashClass (c : Char) : Bool :=
  c = '-' || c.isDigit || ('a' ≤ c && c ≤ 'f') || ('A' ≤ c && c ≤ 'F')

/-- Character class `\s` of JavaScript regular expressions. -/
def wsClass (c : Char) : Bool :=
  (0x9 <= c.val && c.val <= 0xd) || c.val == 0x20 || c.val == 0xa0 ||
    c.val == 0x1680 || (0x2000 <= c.val && c.val <= 0x200a) ||
    c.val == 0x2028 || c.val == 0x2029 || c.val == 0x202f || c.val == 0x205f ||
    c.val == 0x3000 || c.val == 0xfeff

/-- Character class `\w`. -/
def wordClass (c : Char) : Bool :=
  c.isAlpha || c.isDigit || c = '_'

/-- Character class `[-\w\s\/\.;:=]` of the header-like lines. -/
def headerClass (c : Char) : Bool :=
  c = '-' || wordClass c || wsClass c || c = '/' || c = '.' || c = ';' ||
    c = ':' || c = '='

/-- Character class `[-\s\w]` of the HTTP reason phrase. -/
def statusWordClass (c : Char) : Bool :=
  c = '-' || wsClass c || wordClass c

/-- Character class of `.` (anything but a line terminator). -/
def dotClass (c : Char) : Bool :=
  !(c = '\n' || c = '\r' || c = ' ' || c = ' ')

/-- One atom of the embedded regular expression. -/
inductive Atom where
  | lit : List Char → Atom
  | one : (Char → Bool) → Atom
  | plus : (Char → Bool) → Atom
  | star : (Char → Bool) → Atom

/-- Length of the maximal prefix of `cs` whose characters satisfy `p`. -/
def munch (p : Char → Bool) : List Char → Nat
  | [] => 0
  | c :: cs => if p c then munch p cs + 1 else 0

/-- Backtracking driver for a greedy quantifier: tries the continuation after
consuming `lo + n` characters first, then `lo + n - 1`, ..., down to `lo`
(longest consumption first, as a JavaScript engine explores a greedy
quantifier). -/
def tryFrom (cs : List Char) (k : List Char → Option α) (lo : Nat) : Nat → Option α
  | 0 => k (cs.drop lo)
  | n + 1 =>
    match k (cs.drop (lo + (n + 1))) with
    | some v => some v
    | none => tryFrom cs k lo n

/-- Runs one atom against `cs` in continuation-passing style, exploring
alternatives in the order a JavaScript backtracking engine does. -/
def runAtom (a : Atom) (cs : List Char) (k : List Char → Option α) : Option α :=
  match a with
  | .lit s => if s.isPrefixOf cs then k (cs.drop s.length) else none
  | .one p =>
    match cs with
    | [] => none
    | c :: rest => if p c then k rest else none
  | .plus p =>
    let m := munch p cs
    if m = 0 then none else tryFrom cs k 1 (m - 1)
  | .star p => tryFrom cs k 0 (munch p cs)

/-- Runs a sequence of atoms in continuation-passing style. -/
def runSeq : List Atom → List Char → (List Char → Option α) → Option α
  | [], cs, k => k cs
  | a :: as, cs, k => runAtom a cs (fun rest => runSeq as rest k)

/-- Atoms before the capture group: boundary marker, header lines, HTTP status
line, header lines. -/
def preAtoms : List Atom :=
  [.lit "--batchresponse_".data, .plus hexDashClass, .one wsClass,
   .plus headerClass, .one wsClass, .one wsClass,
   .lit "HTTP/".data, .one Char.isDigit, .lit ".".data, .one Char.isDigit,
   .one wsClass, .plus Char.isDigit, .one wsClass, .plus statusWordClass,
   .one wsClass,
   .plus headerClass, .one wsClass, .one wsClass]

/-- Atoms of the capture group `(\{.*\})`. -/
def capAtoms : List Atom :=
  [.lit ['{'], .star dotClass, .lit ['}']]

/-- Atoms after the capture group: trailing whitespace and closing boundary. -/
def postAtoms : List Atom :=
  [.plus wsClass, .lit "--batchresponse_".data, .plus hexDashClass,
   .lit "--".data]

/-- Attempts a match of the whole expression at the current position and
returns the capture group. -/
def matchAt (cs : List Char) : Option (List Char) :=
  runSeq preAtoms cs (fun r1 =>
    runSeq capAtoms r1 (fun r2 =>
      runSeq postAtoms r2 (fun _ =>
        some (r1.take (r1.length - r2.length)))))

/-- Leftmost search: like `String.prototype.match`, tries every start
position from the left and returns the first successful match. -/
def searchCapture : List Char → Option (List Char)
  | [] => matchAt []
  | c :: cs =>
    match matchAt (c :: cs) with
    | some v => some v
    | none => searchCapture cs

/-- Translation of `CRMClient.extractBatchData`: the first capture group of
the batch-response pattern, or `none` (the JavaScript function returns
`undefined`) when the text does not match. -/
def extractBatchData (textContent : String) : Option String :=
  (searchCapture textContent.data).map String.mk

/-- Declarative meaning of one atom: the set of character lists it can
consume. -/
def AtomMatches : Atom → List Char → Prop
  | .lit s, cs => cs = s
  | .one p, cs => ∃ c, cs = [c] ∧ p c = true
  | .plus p, cs => cs ≠ [] ∧ ∀ c ∈ cs, p c = true
  | .star p, cs => ∀ c ∈ cs, p c = true

/-- Declarative meaning of a sequence of atoms: a concatenation of per-atom
consumptions. -/
inductive SeqMatches : List Atom → List Char → Prop where
  | nil : SeqMatches [] []
  | cons {a : Atom} {as : List Atom} {xs ys : List Char} :
      AtomMatches a xs → SeqMatches as ys → SeqMatches (a :: as) (xs ++ ys)

/-- Characters an atom can possibly consume (boolean form, so that facts
about the fixed atom lists are decidable). -/
def atomCharsB : Atom → Char → Bool
  | .lit s, c => s.contains c
  | .one p, c => p c
  | .plus p, c => p c
  | .star p, c => p c

/-- A single-line `{...}` JSON blob with the given interior characters. -/
def jsonBlob (mid : List Char) : List Char :=
  '{' :: (mid ++ ['}'])

/-- The fixed structural template of a batch response body (spec 4.3), with
its variable parts as parameters: opening boundary marker with UUID `u`,
header-like lines `hd1`, an HTTP status line (version digits `d1`/`d2`,
status digits `num`, reason phrase `rsn`), header-like lines `hd2`, the
`{...}` JSON blob with interior `mid`, trailing whitespace `wsp`, and the
closing boundary marker with UUID `u2`; the `c1`..`c8` characters are the
whitespace separating those parts. -/
def batchTemplateBody (u hd1 num rsn hd2 mid wsp u2 : List Char)
    (c1 c2 c3 c4 c5 c6 c7 c8 d1 d2 : Char) : List Char :=
  "--batchresponse_".data ++ u ++ [c1] ++ hd1 ++ [c2] ++ [c3] ++
    "HTTP/".data ++ [d1] ++ ['.'] ++ [d2] ++ [c4] ++ num ++ [c5] ++ rsn ++ [c6] ++
    hd2 ++ [c7] ++ [c8] ++ jsonBlob mid ++ wsp ++
    "--batchresponse_".data ++ u2 ++ "--".data

/-! Response decoding, retry controller and Verb API (`doFetch`,
`doFetchWithRetry`, `isObjectReferenceError`, `doGet`, `doPatch`, `doPost`
orchestration pieces, `doDelete`, `makeBatchBody`). -/

/-- The transient-fault message matched by `isObjectReferenceError`. -/
def OBJECT_REFERENCE_ERROR : String :=
  "Object reference not set to an instance of an object."

/-- Lifts the JavaScript variable `text` (a string, or `undefined` after a
failed batch extraction) into a modelled value. -/
def optTextToJs : Option String → JsValue
  | none => .undefined
  | some s => .str s

/-- The decoding stage of `CRMClient.doFetch`, after the transport produced
an HTTP status and a raw body text: on a batch request the body is first
replaced by `extractBatchData`'s result (possibly `undefined`), then
`JSON.parse(text, this.dateReviver)` runs inside `try`/`catch`, the catch
producing `{error: {message: text}}` from whatever the variable `text` then
holds. -/
def doFetchDecode (status : Nat) (isBatch : Bool) (raw : String) : DecodedResult :=
  let text : Option String := if isBatch then extractBatchData raw else some raw
  match jsonParseReviver text with
  | .ok json => ⟨status, json⟩
  | .error _ => ⟨status, .obj [("error", .obj [("message", optTextToJs text)])]⟩

/-- Translation of `CRMClient.isObjectReferenceError`:
`error.message && error.message === OBJECT_REFERENCE_ERROR`. -/
def isObjectReferenceError (error : JsValue) : Except JsError Bool := do
  let m ← jsProp error "message"
  pure (jsTruthy m && jsStrictEqStr m OBJECT_REFERENCE_ERROR)

/-- One evaluation of the retry condition
`res.content.error && CRMClient.isObjectReferenceError(res.content.error)`. -/
def retryCondition (res : DecodedResult) : Except JsError Bool := do
  let err ← jsProp res.content "error"
  if jsTruthy err then isObjectReferenceError err else pure false

set_option linter.unusedVariables false in
/-- The `while (tries)` loop of `doFetchWithRetry`, with the successive
`doFetch` results supplied by `responses` (attempt number `i` yields
`responses i`).  A faithful translation of the loop body: on a matching
object-reference error the source executes `tries -= tries` (which sets
`tries` to zero) and continues; any other result returns immediately; when
the loop condition fails, `throw new Error(res.content.error)` runs against
the result of the last attempt. -/
def retryLoop (responses : Nat → DecodedResult) (i : Nat) (last : Option DecodedResult) :
    Nat → Except JsError DecodedResult
  | tries =>
    if h0 : tries = 0 then
      match last with
      | none => .error (.typeError "Cannot read properties of undefined (reading content)")
      | some res => do
        let err ← jsProp res.content "error"
        .error (.newError (jsToString err))
    else
      let res := responses i
      match retryCondition res with
      | .error e => .error e
      | .ok true => retryLoop responses (i + 1) (some res) (tries - tries)
      | .ok false => .ok res
  termination_by tries => tries
  decreasing_by simp only [Nat.sub_self]; exact Nat.pos_of_ne_zero h0

/-- Translation of `CRMClient.doFetchWithRetry`: `tries` starts at
`OBJECT_REFERENCE_RETRIES + 1` (the configured retry count plus one). -/
def doFetchWithRetry (retries : Nat) (responses : Nat → DecodedResult) :
    Except JsError DecodedResult :=
  retryLoop responses 0 none (retries + 1)

/-- Translation of `CRMClient.doGet`, with the underlying `doFetch` results
supplied by `responses`.  Returns the value produced together with the list
of messages written by `console.log` on the failure path. -/
def doGet (retries : Nat) (responses : Nat → DecodedResult) :
    Except JsError (JsValue × List String) := do
  let res ← doFetchWithRetry retries responses
  let err ← jsProp res.content "error"
  if !jsTruthy err && res.status == 200 then do
    let v ← processGetResponse res.content
    pure (v, [])
  else do
    let e ← jsProp res.content "error"
    let m ← jsProp e "message"
    pure (.bool false,
      ["GET request failed with status: " ++ toString res.status ++
        ", error: " ++ jsToString m])

/-- Translation of `CRMClient.doPatch` given the awaited `doFetch` result:
success requires no error and a status in the 2xx range. -/
def doPatch (res : DecodedResult) : Except JsError (JsValue × List String) := do
  let err ← jsProp res.content "error"
  if !jsTruthy err && (200 ≤ res.status && res.status < 300) then
    pure (res.content, [])
  else do
    let e ← jsProp res.content "error"
    let m ← jsProp e "message"
    pure (.bool false,
      ["PATCH request failed with status: " ++ toString res.status ++
        ", error: " ++ jsToString m])

/-- Translation of `CRMClient.doDelete`.  The source reads
`const res = this.doFetch(DELETE, query);` without `await`, so `res` is a
pending `Promise` whatever the eventual `DecodedResult` (the parameter) would
be; `res.content` is then `undefined` and `res.content.error` raises a
`TypeError`. -/
def doDelete (_fetchOutcome : DecodedResult) : Except JsError (JsValue × List String) := do
  let res : JsValue := .promise
  let content ← jsProp res "content"
  let err ← jsProp content "error"
  let status ← jsProp res "status"
  if !jsTruthy err && jsStrictEqNum status 200 then
    pure (content, [])
  else do
    let e ← jsProp content "error"
    let m ← jsProp e "message"
    pure (.bool false,
      ["DELETE request failed with status: " ++ jsToString status ++
        ", error: " ++ jsToString m])

/-- The boundary name used for batch requests. -/
def BATCH_NAME : String := "batch"

/-- Translation of `CRMClient.makeBatchBody`: the template literal begins
with the newline that follows the opening backtick and ends with the newline
that precedes the closing backtick. -/
def makeBatchBody (crmUrl query fetchXML : String) : String :=
  "\n--batch\nContent-Type: application/http\nContent-Transfer-Encoding: binary\n\nGET "
    ++ crmUrl ++ query ++ "?fetchXml=" ++ fetchXML ++
    " HTTP/1.1\nContent-Type: application/json\nOData-Version: 4.0\nOData-MaxCersion: 4.0\n\n--batch--\n"

/-- Modelled from the spec: the batch body as claim C9 describes it — the
opening boundary line, the two sub-part header lines, a blank line, the GET
line, the three sub-request header lines (`OData-MaxCersion` verbatim), a
blank line and the closing boundary, with no extra leading or trailing
content. -/
def specBatchBody (crmUrl query fetchXML : String) : String :=
  "--batch\nContent-Type: application/http\nContent-Transfer-Encoding: binary\n\nGET "
    ++ crmUrl ++ query ++ "?fetchXml=" ++ fetchXML ++
    " HTTP/1.1\nContent-Type: application/json\nOData-Version: 4.0\nOData-MaxCersion: 4.0\n\n--batch--"

/-! Lemmas about `normFields` used by the property-normalization claims. -/

/-- Abbreviation for the normalized key of an entry. -/
def normKey (kv : String × JsValue) : String :=
  getNormalizedPropertyName kv.1

/-- A `doFetch` outcome carrying exactly the transient object-reference fault. -/
def objRefFaultResult : DecodedResult :=
  ⟨500, .obj [("error", .obj [("message", .str OBJECT_REFERENCE_ERROR)])]⟩

/-- A successful `doFetch` outcome. -/
def goodFetchResult : DecodedResult :=
  ⟨200, .obj [("value", .arr [])]⟩

/-- Response sequence for the retry claim: one transient fault, then success. -/
def faultThenSuccess : Nat → DecodedResult :=
  fun i => if i = 0 then objRefFaultResult else goodFetchResult


theorem setFieldList_append (acc : List (String × JsValue)) (k : String) (v : JsValue)
    (h : ∀ kv ∈ acc, kv.1 ≠ k) : setFieldList acc k v = acc ++ [(k, v)] := by
  unfold setFieldList
  rw [if_neg]
  simp only [List.any_eq_true, beq_iff_eq, not_exists, not_and]
  intro kv hkv
  exact fun he => h kv hkv he

theorem normFields_go (fs : List (String × JsValue)) :
    ∀ acc : List (String × JsValue), (fs.map normKey).Nodup →
      (∀ kv ∈ fs, ∀ kv' ∈ acc, kv'.1 ≠ normKey kv) →
      fs.foldl (fun acc kv => setFieldList acc (getNormalizedPropertyName kv.1) kv.2) acc =
        acc ++ fs.map (fun kv => (normKey kv, kv.2)) := by
  induction fs with
  | nil => intro acc _ _; simp
  | cons kv rest ih =>
    intro acc hnd hdisj
    simp only [List.foldl_cons, List.map_cons]
    rw [setFieldList_append acc (getNormalizedPropertyName kv.1) kv.2
      (fun kv' hkv' => hdisj kv (by simp) kv' hkv')]
    have hnd' : (rest.map normKey).Nodup := by
      simp only [List.map_cons, List.nodup_cons] at hnd
      exact hnd.2
    have hdisj' : ∀ kv2 ∈ rest,
        ∀ kv' ∈ acc ++ [(getNormalizedPropertyName kv.1, kv.2)], kv'.1 ≠ normKey kv2 := by
      intro kv2 hkv2 kv' hkv'
      rcases List.mem_append.mp hkv' with hin | hin
      · exact hdisj kv2 (by simp [hkv2]) kv' hin
      · simp only [List.mem_singleton] at hin
        subst hin
        simp only [List.map_cons, List.nodup_cons] at hnd
        intro he
        have he' : normKey kv = normKey kv2 := he
        exact hnd.1 (he'.symm ▸ List.mem_map_of_mem normKey hkv2)
    rw [ih (acc ++ [(getNormalizedPropertyName kv.1, kv.2)]) hnd' hdisj']
    simp [normKey]

/-- With pairwise-distinct normalized keys, the object built by
`parsePrefixedEntity` is the field list with every key normalized in place. -/
theorem normFields_eq_map (fs : List (String × JsValue))
    (hnd : (fs.map normKey).Nodup) :
    normFields fs = fs.map (fun kv => (normKey kv, kv.2)) := by
  unfold normFields
  simpa using normFields_go fs [] hnd (by simp)

theorem lookup_eq_none_of_forall (k : String) :
    ∀ l : List (String × JsValue), (∀ kv ∈ l, kv.1 ≠ k) → l.lookup k = none
  | [], _ => rfl
  | kv :: rest, h => by
    have hne : (k == kv.1) = false :=
      beq_eq_false_iff_ne.mpr (fun he => h kv (by simp) he.symm)
    simp only [List.lookup, hne]
    exact lookup_eq_none_of_forall k rest (fun kv2 h2 => h kv2 (by simp [h2]))

theorem lookup_of_mem_nodup (k : String) (v : JsValue) :
    ∀ l : List (String × JsValue), (k, v) ∈ l → (l.map Prod.fst).Nodup →
      l.lookup k = some v
  | [], hmem, _ => absurd hmem (List.not_mem_nil _)
  | kv :: rest, hmem, hnd => by
    simp only [List.map_cons, List.nodup_cons] at hnd
    rcases List.mem_cons.mp hmem with he | hin
    · rw [← he]
      simp [List.lookup]
    · have hne : (k == kv.1) = false := beq_eq_false_iff_ne.mpr (by
        intro he
        exact hnd.1 (he ▸ List.mem_map_of_mem Prod.fst hin))
      simp only [List.lookup, hne]
      exact lookup_of_mem_nodup k v rest hin hnd.2

theorem lookup_normFields_of_mem (fs : List (String × JsValue)) (k : String) (v : JsValue)
    (hmem : (k, v) ∈ fs) (hnd : (fs.map normKey).Nodup) :
    (normFields fs).lookup (getNormalizedPropertyName k) = some v := by
  rw [normFields_eq_map fs hnd]
  refine lookup_of_mem_nodup _ _ _ ?_ ?_
  · exact List.mem_map_of_mem (fun kv => (normKey kv, kv.2)) hmem
  · have : ((fs.map (fun kv => (normKey kv, kv.2))).map Prod.fst) = fs.map normKey := by
      simp [List.map_map, Function.comp]
    rw [this]
    exact hnd

theorem lookup_normFields_eq_none (fs : List (String × JsValue)) (k : String)
    (h : ∀ kv ∈ fs, normKey kv ≠ k) (hnd : (fs.map normKey).Nodup) :
    (normFields fs).lookup k = none := by
  rw [normFields_eq_map fs hnd]
  refine lookup_eq_none_of_forall _ _ ?_
  intro kv hkv
  rcases List.mem_map.mp hkv with ⟨kv0, hkv0, rfl⟩
  exact h kv0 hkv0

section ExceptLemmas

variable {ε α β : Type}

@[simp] theorem except_ok_bind (a : α) (f : α → Except ε β) :
    ((Except.ok a : Except ε α) >>= f) = f a := rfl

@[simp] theorem except_error_bind (e : ε) (f : α → Except ε β) :
    ((Except.error e : Except ε α) >>= f) = Except.error e := rfl

@[simp] theorem except_map_ok (f : α → β) (a : α) :
    (f <$> (Except.ok a : Except ε α)) = Except.ok (f a) := rfl

@[simp] theorem except_map_error (f : α → β) (e : ε) :
    (f <$> (Except.error e : Except ε α)) = Except.error e := rfl

@[simp] theorem except_pure_eq_ok (a : α) : (pure a : Except ε α) = Except.ok a := rfl

end ExceptLemmas

/-! Claim theorems. -/

/-- C1: the claim requires that with one transient-fault response followed by
a success and configured retries R = 1 ≥ N = 1, `doFetchWithRetry` returns
the success.  The code instead executes `tries -= tries`, which zeroes the
counter, so the loop exits after the single failed attempt and the call
throws `new Error(res.content.error)` — it never reaches the success. -/
theorem claim_C1_retry_never_retries :
    doFetchWithRetry 1 faultThenSuccess = .error (.newError "[object Object]") ∧
    doFetchWithRetry 1 faultThenSuccess ≠ .ok goodFetchResult := by
  have hrun : doFetchWithRetry 1 faultThenSuccess
      = Except.error (JsError.newError "[object Object]") := by
    rw [doFetchWithRetry, retryLoop.eq_def]
    norm_num
    rw [show retryCondition (faultThenSuccess 0) = Except.ok true from rfl]
    rw [retryLoop.eq_def]
    rfl
  exact ⟨hrun, by rw [hrun]; exact fun hc => Except.noConfusion hc⟩

/-- C2: the claim requires the reviver to convert date-like strings and pass
every other value through unchanged.  The code calls `Math.isNaN`, which is
not a member of the JavaScript `Math` object, so every single invocation of
the reviver raises a `TypeError` instead — no value is ever converted or
passed through. -/
theorem claim_C2_date_reviver_always_throws (key : String) (value : JsValue) :
    dateReviver key value = .error (.typeError "Math.isNaN is not a function") := rfl

/-- C5: the claim requires `doDelete` to return content on a 200 no-error
response and `false` otherwise, never throwing.  The code omits `await` on
`this.doFetch`, so `res` is a pending `Promise`, `res.content` is `undefined`
and reading `.error` on it raises a `TypeError` on every call, whatever the
underlying fetch outcome is. -/
theorem claim_C5_delete_always_throws (fetchOutcome : DecodedResult) :
    doDelete fetchOutcome =
      .error (.typeError "Cannot read properties of undefined (reading error)") := rfl

/-- C9 counterexample: at concrete inputs the constructed batch body differs
from the claimed template, because the template literal opens and closes with
a line break of its own. -/
theorem claim_C9_cex :
    makeBatchBody "https://crm/api/" "foos" "<fetch/>" ≠
      specBatchBody "https://crm/api/" "foos" "<fetch/>" := by
  decide

theorem string_data_inj {a b : String} (h : a.data = b.data) : a = b := by
  cases a
  cases b
  exact congrArg String.mk h

theorem string_data_append (a b : String) : (a ++ b).data = a.data ++ b.data := rfl

/-- C9 amended: the body is exactly the claimed fixed template, except that a
single newline precedes the opening boundary line and a single newline
follows the closing boundary. -/
theorem claim_C9_amended (crmUrl query fetchXML : String) :
    makeBatchBody crmUrl query fetchXML =
      "\n" ++ specBatchBody crmUrl query fetchXML ++ "\n" := by
  apply string_data_inj
  simp only [makeBatchBody, specBatchBody, string_data_append, List.append_assoc]
  rw [← List.append_assoc (("\n" : String).data)]
  rw [show ("\n" : String).data ++
      ("--batch\nContent-Type: application/http\nContent-Transfer-Encoding: binary\n\nGET " : String).data =
      ("\n--batch\nContent-Type: application/http\nContent-Transfer-Encoding: binary\n\nGET " : String).data
    from rfl]
  rw [show (" HTTP/1.1\nContent-Type: application/json\nOData-Version: 4.0\nOData-MaxCersion: 4.0\n\n--batch--" : String).data ++
      ("\n" : String).data =
      (" HTTP/1.1\nContent-Type: application/json\nOData-Version: 4.0\nOData-MaxCersion: 4.0\n\n--batch--\n" : String).data
    from rfl]

/-- C3 counterexample: an entity whose property name is the bare
formatted-value annotation (cut index 0) is left unchanged — the normalized
mapping still contains the annotated key and has no `_formatted` key — and a
property name containing the formatted-value annotation together with the
lookup-logical-name annotation is renamed with `_logical`, not `_formatted`. -/
theorem claim_C3_cex :
    normFields [(FORMATTED_VALUE, JsValue.str "x")] = [(FORMATTED_VALUE, JsValue.str "x")] ∧
    (normFields [(FORMATTED_VALUE, JsValue.str "x")]).lookup "_formatted" = none ∧
    getNormalizedPropertyName ("a" ++ FORMATTED_VALUE ++ LOGICAL_NAME) =
      "a" ++ FORMATTED_VALUE ++ "_logical" :=
  ⟨rfl, rfl, rfl⟩

/-- C3 amended: for a property name that contains exactly one of the three
annotations, at a positive index, and an entity whose normalized keys do not
collide, the normalized mapping binds `<base><suffix>` to the original value
and no longer contains the annotated key; a name containing none of the
annotations is normalized to itself. -/
theorem claim_C3_amended_rename (fs : List (String × JsValue)) (k : String) (v : JsValue)
    (ann suf : String) (plain : String)
    (hann : (ann, suf) ∈ [(FORMATTED_VALUE, "_formatted"), (LOGICAL_NAME, "_logical"),
      (NAVIGATION_PROPERTY, "_navigationproperty")])
    (hincl : strIncl k ann = true)
    (hother : ∀ a ∈ [FORMATTED_VALUE, LOGICAL_NAME, NAVIGATION_PROPERTY],
      a ≠ ann → strIncl k a = false)
    (hpos : strIdxOf k ann ≠ 0)
    (hmem : (k, v) ∈ fs)
    (hnd : (fs.map normKey).Nodup)
    (hfresh : ∀ kv ∈ fs, normKey kv ≠ k)
    (hplain1 : strIncl plain FORMATTED_VALUE = false)
    (hplain2 : strIncl plain LOGICAL_NAME = false)
    (hplain3 : strIncl plain NAVIGATION_PROPERTY = false) :
    getNormalizedPropertyName k = k.take (strIdxOf k ann) ++ suf ∧
    (normFields fs).lookup (k.take (strIdxOf k ann) ++ suf) = some v ∧
    (normFields fs).lookup k = none ∧
    getNormalizedPropertyName plain = plain := by
  have hname : getNormalizedPropertyName k = k.take (strIdxOf k ann) ++ suf := by
    simp only [List.mem_cons, List.mem_singleton, List.not_mem_nil, or_false,
      Prod.mk.injEq] at hann
    rcases hann with ⟨rfl, rfl⟩ | ⟨rfl, rfl⟩ | ⟨rfl, rfl⟩
    · have hl : strIncl k LOGICAL_NAME = false := hother _ (by simp) (by decide)
      have hn : strIncl k NAVIGATION_PROPERTY = false := hother _ (by simp) (by decide)
      simp [getNormalizedPropertyName, hincl, hl, hn, hpos]
    · have hf : strIncl k FORMATTED_VALUE = false := hother _ (by simp) (by decide)
      have hn : strIncl k NAVIGATION_PROPERTY = false := hother _ (by simp) (by decide)
      simp [getNormalizedPropertyName, hincl, hf, hn, hpos]
    · have hf : strIncl k FORMATTED_VALUE = false := hother _ (by simp) (by decide)
      have hl : strIncl k LOGICAL_NAME = false := hother _ (by simp) (by decide)
      simp [getNormalizedPropertyName, hincl, hf, hl, hpos]
  refine ⟨hname, ?_, ?_, ?_⟩
  · rw [← hname]
    exact lookup_normFields_of_mem fs k v hmem hnd
  · exact lookup_normFields_eq_none fs k hfresh hnd
  · simp [getNormalizedPropertyName, hplain1, hplain2, hplain3]

/-- C3 witness at concrete values: entity with one annotated and one plain
key. -/
theorem claim_C3_amended_witness :
    ((FORMATTED_VALUE, "_formatted") ∈ [(FORMATTED_VALUE, "_formatted"),
      (LOGICAL_NAME, "_logical"), (NAVIGATION_PROPERTY, "_navigationproperty")]) ∧
    (getNormalizedPropertyName ("a" ++ FORMATTED_VALUE) =
        ("a" ++ FORMATTED_VALUE).take (strIdxOf ("a" ++ FORMATTED_VALUE) FORMATTED_VALUE)
          ++ "_formatted" ∧
      (normFields [("b", JsValue.str "2"), ("a" ++ FORMATTED_VALUE, JsValue.str "1")]).lookup
        (("a" ++ FORMATTED_VALUE).take (strIdxOf ("a" ++ FORMATTED_VALUE) FORMATTED_VALUE)
          ++ "_formatted") = some (JsValue.str "1") ∧
      (normFields [("b", JsValue.str "2"), ("a" ++ FORMATTED_VALUE, JsValue.str "1")]).lookup
        ("a" ++ FORMATTED_VALUE) = none ∧
      getNormalizedPropertyName "b" = "b") :=
  ⟨by simp,
    claim_C3_amended_rename
      [("b", JsValue.str "2"), ("a" ++ FORMATTED_VALUE, JsValue.str "1")]
      ("a" ++ FORMATTED_VALUE) (JsValue.str "1") FORMATTED_VALUE "_formatted" "b"
      (by simp)
      (by decide)
      (by decide)
      (by decide)
      (by simp)
      (by decide)
      (by decide)
      (by decide)
      (by decide)
      (by decide)⟩

/-- C10 counterexample: a property name consisting of the navigation-property
annotation followed by the formatted-value annotation contains more than one
annotation; the claimed precedence rule would cut at the navigation-property
index (0) and append `_navigationproperty`, but the code returns the name
unchanged because index 0 is falsy in the `(index && suffix)` guard. -/
theorem claim_C10_cex :
    getNormalizedPropertyName (NAVIGATION_PROPERTY ++ FORMATTED_VALUE) =
      NAVIGATION_PROPERTY ++ FORMATTED_VALUE ∧
    getNormalizedPropertyName (NAVIGATION_PROPERTY ++ FORMATTED_VALUE) ≠
      "_navigationproperty" :=
  ⟨rfl, by decide⟩

/-- C10 amended: when the highest-precedence annotation present occurs at a
positive index, the last matching annotation determines both the cut index
and the appended suffix, with navigation-property over lookup-logical-name
over formatted-value; a name beginning with its highest-precedence annotation
is returned unchanged (index 0 is falsy). -/
theorem claim_C10_amended_precedence (p q r : String)
    (hpn : strIncl p NAVIGATION_PROPERTY = true)
    (hppos : strIdxOf p NAVIGATION_PROPERTY ≠ 0)
    (hqn : strIncl q NAVIGATION_PROPERTY = false)
    (hql : strIncl q LOGICAL_NAME = true)
    (hqpos : strIdxOf q LOGICAL_NAME ≠ 0)
    (hrn : strIncl r NAVIGATION_PROPERTY = false)
    (hrl : strIncl r LOGICAL_NAME = false)
    (hrf : strIncl r FORMATTED_VALUE = true)
    (hrpos : strIdxOf r FORMATTED_VALUE ≠ 0) :
    getNormalizedPropertyName p =
      p.take (strIdxOf p NAVIGATION_PROPERTY) ++ "_navigationproperty" ∧
    getNormalizedPropertyName q = q.take (strIdxOf q LOGICAL_NAME) ++ "_logical" ∧
    getNormalizedPropertyName r = r.take (strIdxOf r FORMATTED_VALUE) ++ "_formatted" := by
  refine ⟨?_, ?_, ?_⟩
  · simp [getNormalizedPropertyName, hpn, hppos]
  · simp [getNormalizedPropertyName, hqn, hql, hqpos]
  · simp [getNormalizedPropertyName, hrn, hrl, hrf, hrpos]

/-- C10 witness: a name with both annotations where navigation-property wins,
a name with logical-name and formatted-value where logical-name wins, and a
name with formatted-value only. -/
theorem claim_C10_amended_witness :
    (strIncl ("a" ++ NAVIGATION_PROPERTY ++ FORMATTED_VALUE) NAVIGATION_PROPERTY = true) ∧
    (getNormalizedPropertyName ("a" ++ NAVIGATION_PROPERTY ++ FORMATTED_VALUE) =
        ("a" ++ NAVIGATION_PROPERTY ++ FORMATTED_VALUE).take
          (strIdxOf ("a" ++ NAVIGATION_PROPERTY ++ FORMATTED_VALUE) NAVIGATION_PROPERTY)
          ++ "_navigationproperty" ∧
      getNormalizedPropertyName ("a" ++ FORMATTED_VALUE ++ LOGICAL_NAME) =
        ("a" ++ FORMATTED_VALUE ++ LOGICAL_NAME).take
          (strIdxOf ("a" ++ FORMATTED_VALUE ++ LOGICAL_NAME) LOGICAL_NAME) ++ "_logical" ∧
      getNormalizedPropertyName ("a" ++ FORMATTED_VALUE) =
        ("a" ++ FORMATTED_VALUE).take
          (strIdxOf ("a" ++ FORMATTED_VALUE) FORMATTED_VALUE) ++ "_formatted") :=
  ⟨by decide,
    claim_C10_amended_precedence
      ("a" ++ NAVIGATION_PROPERTY ++ FORMATTED_VALUE)
      ("a" ++ FORMATTED_VALUE ++ LOGICAL_NAME)
      ("a" ++ FORMATTED_VALUE)
      (by decide) (by decide) (by decide) (by decide) (by decide)
      (by decide) (by decide) (by decide) (by decide)⟩

/-- C4 counterexample: for a body that does not match the batch template, the
decode stage produces `{error: {message: undefined}}` — the raw response text
is discarded when the batch extraction comes back empty — rather than the
claimed `{error: {message: <raw text>}}`. -/
theorem claim_C4_cex :
    doFetchDecode 200 true "not a batch" =
      ⟨200, .obj [("error", .obj [("message", JsValue.undefined)])]⟩ ∧
    doFetchDecode 200 true "not a batch" ≠
      ⟨200, .obj [("error", .obj [("message", JsValue.str "not a batch")])]⟩ := by
  have h : doFetchDecode 200 true "not a batch" =
      ⟨200, .obj [("error", .obj [("message", JsValue.undefined)])]⟩ := rfl
  refine ⟨h, ?_⟩
  rw [h]
  intro hc
  simp at hc

/-- C4 amended: for every batch response body on which the extraction finds
no match, the decode stage yields a Decoded Result (no exception) whose
content is `{error: {message: undefined}}`: the JavaScript variable `text`
was overwritten by the failed extraction, so the message is the `undefined`
value, not the raw response text. -/
theorem claim_C4_amended (st : Nat) (raw : String)
    (h : extractBatchData raw = none) :
    doFetchDecode st true raw =
      ⟨st, .obj [("error", .obj [("message", JsValue.undefined)])]⟩ := by
  simp only [doFetchDecode, h, if_true]
  rw [show jsonParseReviver none =
      Except.error (JsError.syntaxError "Unexpected token in JSON: undefined") from rfl]
  rfl

/-- C4 witness: a concrete malformed batch body (no boundary markers at all)
on which the extraction fails and the decode produces the undefined message. -/
theorem claim_C4_amended_witness :
    extractBatchData "--batchresponse_x but no closing boundary" = none ∧
    doFetchDecode 404 true "--batchresponse_x but no closing boundary" =
      ⟨404, .obj [("error", .obj [("message", JsValue.undefined)])]⟩ :=
  ⟨rfl, claim_C4_amended 404 "--batchresponse_x but no closing boundary" rfl⟩

theorem retryCondition_no_error (st : Nat) (fs : List (String × JsValue))
    (h : fs.lookup "error" = none) : retryCondition ⟨st, .obj fs⟩ = .ok false := by
  simp [retryCondition, jsProp, h, jsTruthy, Except.bind]

theorem retryCondition_other_error (st : Nat) (fs efs : List (String × JsValue)) (m : String)
    (h1 : fs.lookup "error" = some (.obj efs))
    (h2 : efs.lookup "message" = some (.str m))
    (h3 : m ≠ OBJECT_REFERENCE_ERROR) :
    retryCondition ⟨st, .obj fs⟩ = .ok false := by
  simp [retryCondition, jsProp, h1, h2, jsTruthy, isObjectReferenceError,
    jsStrictEqStr, Except.bind, beq_eq_false_iff_ne.mpr h3]

/-- A response whose content does not carry the transient fault is returned
by the retry wrapper as is, on the first attempt. -/
theorem doFetchWithRetry_first (retries : Nat) (responses : Nat → DecodedResult)
    (h : retryCondition (responses 0) = .ok false) :
    doFetchWithRetry retries responses = .ok (responses 0) := by
  rw [doFetchWithRetry, retryLoop.eq_def]
  simp [Nat.succ_ne_zero, h]

/-- C6: a GET whose (retried) response has status 200 and error-free content
exposing a single-entity context returns the normalized content; a GET whose
response has status 404 and an ordinary error returns `false` and logs the
status and error message; a PATCH whose response has any 2xx status (such as
204) and error-free content returns the content unchanged. -/
theorem claim_C6_verb_scenarios
    (retries : Nat) (fs : List (String × JsValue)) (ctx : String)
    (fs4 efs : List (String × JsValue)) (m : String)
    (s : Nat) (fsP : List (String × JsValue))
    (hA1 : fs.lookup "error" = none)
    (hA2 : fs.lookup "@odata.context" = some (.str ctx))
    (hA3 : strIncl ctx "/$entity" = true)
    (hB1 : fs4.lookup "error" = some (.obj efs))
    (hB2 : efs.lookup "message" = some (.str m))
    (hB3 : m ≠ OBJECT_REFERENCE_ERROR)
    (hC1 : fsP.lookup "error" = none)
    (hC2 : 200 ≤ s) (hC3 : s < 300) :
    doGet retries (fun _ => ⟨200, .obj fs⟩) = .ok (.obj (normFields fs), []) ∧
    doGet retries (fun _ => ⟨404, .obj fs4⟩) =
      .ok (.bool false,
        ["GET request failed with status: " ++ toString (404 : Nat) ++ ", error: " ++ m]) ∧
    doPatch ⟨s, .obj fsP⟩ = .ok (.obj fsP, []) := by
  refine ⟨?_, ?_, ?_⟩
  · rw [doGet, doFetchWithRetry_first retries _ (retryCondition_no_error 200 fs hA1)]
    simp [jsProp, hA1, jsTruthy, Except.bind, processGetResponse, hA2, jsIncludes,
      hA3, parsePrefixedEntity, jsOwnFields]
  · rw [doGet, doFetchWithRetry_first retries _
      (retryCondition_other_error 404 fs4 efs m hB1 hB2 hB3)]
    simp [jsProp, hB1, hB2, jsTruthy, Except.bind, jsToString]
  · simp [doPatch, jsProp, hC1, jsTruthy, Except.bind, hC2, hC3]

/-- C6 witness at concrete responses: a 200 single-entity GET, a 404 GET with
an error body, and a 204 PATCH. -/
theorem claim_C6_verb_scenarios_witness :
    ([("@odata.context", JsValue.str "x/$entity")].lookup "error" = none ∧
      [("error", JsValue.obj [("message", JsValue.str "boom")])].lookup "error"
        = some (.obj [("message", JsValue.str "boom")]) ∧
      ("boom" : String) ≠ OBJECT_REFERENCE_ERROR ∧ 200 ≤ 204 ∧ 204 < 300) ∧
    doGet 1 (fun _ => ⟨200, .obj [("@odata.context", JsValue.str "x/$entity")]⟩) =
      .ok (.obj (normFields [("@odata.context", JsValue.str "x/$entity")]), []) ∧
    doGet 1 (fun _ => ⟨404, .obj [("error", JsValue.obj [("message", JsValue.str "boom")])]⟩) =
      .ok (.bool false,
        ["GET request failed with status: " ++ toString (404 : Nat) ++ ", error: " ++ "boom"]) ∧
    doPatch ⟨204, .obj [("ok", JsValue.bool true)]⟩ =
      .ok (.obj [("ok", JsValue.bool true)], []) :=
  ⟨⟨rfl, rfl, by decide, by decide, by decide⟩,
    (claim_C6_verb_scenarios 1 [("@odata.context", JsValue.str "x/$entity")] "x/$entity"
      [("error", JsValue.obj [("message", JsValue.str "boom")])]
      [("message", JsValue.str "boom")] "boom" 204 [("ok", JsValue.bool true)]
      rfl rfl rfl rfl rfl (by decide) rfl (by decide) (by decide)).1,
    (claim_C6_verb_scenarios 1 [("@odata.context", JsValue.str "x/$entity")] "x/$entity"
      [("error", JsValue.obj [("message", JsValue.str "boom")])]
      [("message", JsValue.str "boom")] "boom" 204 [("ok", JsValue.bool true)]
      rfl rfl rfl rfl rfl (by decide) rfl (by decide) (by decide)).2.1,
    (claim_C6_verb_scenarios 1 [("@odata.context", JsValue.str "x/$entity")] "x/$entity"
      [("error", JsValue.obj [("message", JsValue.str "boom")])]
      [("message", JsValue.str "boom")] "boom" 204 [("ok", JsValue.bool true)]
      rfl rfl rfl rfl rfl (by decide) rfl (by decide) (by decide)).2.2⟩

/-- C7 counterexample: a parsed GET response without any `@odata.context` key
(here one exposing a `value` array) is not returned as-is and is not mapped
over: the very first step of `processGetResponse` reads
`json["@odata.context"].includes(...)` and raises a `TypeError` on
`undefined`. -/
theorem claim_C7_cex :
    processGetResponse (JsValue.obj [("value", JsValue.arr [])]) =
      .error (.typeError "includes is not a function") ∧
    processGetResponse (JsValue.obj [("value", JsValue.arr [])]) ≠
      .ok (JsValue.obj [("value", JsValue.arr [])]) := by
  have h : processGetResponse (JsValue.obj [("value", JsValue.arr [])]) =
      .error (.typeError "includes is not a function") := rfl
  exact ⟨h, by rw [h]; exact fun hc => Except.noConfusion hc⟩

/-- C7 amended: provided the parsed JSON exposes an `@odata.context` string,
the three claimed cases hold — context containing `/$entity` is normalized as
a single entity, an exposed `value` array is mapped element-wise, any other
such JSON is returned as-is; when the context key is absent the `includes`
call on `undefined` raises a `TypeError` instead of passing the JSON
through. -/
theorem claim_C7_amended
    (fs1 : List (String × JsValue)) (ctx1 : String)
    (fs2 : List (String × JsValue)) (ctx2 : String) (xs : List JsValue)
    (fs3 : List (String × JsValue)) (ctx3 : String)
    (fs4 : List (String × JsValue))
    (h11 : fs1.lookup "@odata.context" = some (.str ctx1))
    (h12 : strIncl ctx1 "/$entity" = true)
    (h21 : fs2.lookup "@odata.context" = some (.str ctx2))
    (h22 : strIncl ctx2 "/$entity" = false)
    (h23 : fs2.lookup "value" = some (.arr xs))
    (h31 : fs3.lookup "@odata.context" = some (.str ctx3))
    (h32 : strIncl ctx3 "/$entity" = false)
    (h33 : fs3.lookup "value" = none)
    (h41 : fs4.lookup "@odata.context" = none) :
    processGetResponse (.obj fs1) = parsePrefixedEntity (.obj fs1) ∧
    processGetResponse (.obj fs2) =
      (xs.mapM parsePrefixedEntity).bind
        (fun xs' => pure (jsSetField (.obj fs2) "value" (.arr xs'))) ∧
    processGetResponse (.obj fs3) = .ok (.obj fs3) ∧
    processGetResponse (.obj fs4) = .error (.typeError "includes is not a function") := by
  refine ⟨?_, ?_, ?_, ?_⟩
  · simp [processGetResponse, jsProp, h11, jsIncludes, h12, Except.bind]
  · simp [processGetResponse, jsProp, h21, jsIncludes, h22, h23, jsTruthy, Except.bind]
    rfl
  · simp [processGetResponse, jsProp, h31, jsIncludes, h32, h33, jsTruthy, Except.bind]
  · simp [processGetResponse, jsProp, h41, jsIncludes, Except.bind]

/-- C7 witness at concrete responses for all four cases. -/
theorem claim_C7_amended_witness :
    ([("@odata.context", JsValue.str "a/$entity")].lookup "@odata.context"
        = some (JsValue.str "a/$entity") ∧
      strIncl "a/$entity" "/$entity" = true ∧
      ([("@odata.context", JsValue.str "c"), ("value", JsValue.arr [])].lookup "value"
        = some (JsValue.arr [])) ∧
      (([] : List (String × JsValue)).lookup "@odata.context" = none)) ∧
    processGetResponse (.obj [("@odata.context", JsValue.str "a/$entity")]) =
      parsePrefixedEntity (.obj [("@odata.context", JsValue.str "a/$entity")]) ∧
    processGetResponse (.obj [("@odata.context", JsValue.str "c"), ("value", JsValue.arr [])]) =
      (([] : List JsValue).mapM parsePrefixedEntity).bind
        (fun xs' => pure (jsSetField
          (.obj [("@odata.context", JsValue.str "c"), ("value", JsValue.arr [])])
          "value" (.arr xs'))) ∧
    processGetResponse (.obj [("@odata.context", JsValue.str "c")]) =
      .ok (.obj [("@odata.context", JsValue.str "c")]) ∧
    processGetResponse (.obj ([] : List (String × JsValue))) =
      .error (.typeError "includes is not a function") :=
  ⟨⟨rfl, by decide, rfl, rfl⟩,
    claim_C7_amended
      [("@odata.context", JsValue.str "a/$entity")] "a/$entity"
      [("@odata.context", JsValue.str "c"), ("value", JsValue.arr [])] "c" []
      [("@odata.context", JsValue.str "c")] "c" []
      rfl (by decide) rfl (by decide) rfl rfl (by decide) rfl rfl⟩

/-! Soundness and completeness of the backtracking matcher with respect to
the declarative semantics, used to settle the batch-extraction claim. -/

section EngineLemmas

variable {α : Type}

theorem munch_le_length (p : Char → Bool) : ∀ cs : List Char, munch p cs ≤ cs.length
  | [] => Nat.le_refl 0
  | c :: cs => by
    unfold munch
    by_cases h : p c = true
    · simpa [h] using Nat.succ_le_succ (munch_le_length p cs)
    · simp [h]

theorem munch_take (p : Char → Bool) :
    ∀ (cs : List Char) (j : Nat), j ≤ munch p cs → ∀ c ∈ cs.take j, p c = true
  | _, 0, _ => by simp
  | [], j + 1, h => by simp [munch] at h
  | c :: cs, j + 1, h => by
    unfold munch at h
    by_cases hc : p c = true
    · simp only [hc, if_true] at h
      intro x hx
      rcases List.mem_cons.mp (by simpa using hx) with hx1 | hx2
      · exact hx1 ▸ hc
      · exact munch_take p cs j (Nat.le_of_succ_le_succ h) x hx2
    · simp [hc] at h

theorem munch_max (p : Char → Bool) :
    ∀ (xs ys : List Char), (∀ c ∈ xs, p c = true) → xs.length ≤ munch p (xs ++ ys)
  | [], _, _ => Nat.zero_le _
  | x :: xs, ys, h => by
    have hx : p x = true := h x (by simp)
    simp only [List.cons_append, munch, hx, if_true, List.length_cons]
    exact Nat.succ_le_succ (munch_max p xs ys (fun c hc => h c (by simp [hc])))

theorem tryFrom_sound (cs : List Char) (k : List Char → Option α) (lo : Nat) :
    ∀ (n : Nat) (v : α), tryFrom cs k lo n = some v →
      ∃ j, lo ≤ j ∧ j ≤ lo + n ∧ k (cs.drop j) = some v
  | 0, v, h => ⟨lo, Nat.le_refl lo, Nat.le_refl _, h⟩
  | n + 1, v, h => by
    unfold tryFrom at h
    cases hk : k (cs.drop (lo + (n + 1))) with
    | some w =>
      rw [hk] at h
      cases h
      exact ⟨lo + (n + 1), Nat.le_add_right _ _, Nat.le_refl _, hk⟩
    | none =>
      rw [hk] at h
      rcases tryFrom_sound cs k lo n v h with ⟨j, h1, h2, h3⟩
      exact ⟨j, h1, Nat.le_succ_of_le h2, h3⟩

theorem tryFrom_none (cs : List Char) (k : List Char → Option α) (lo : Nat) :
    ∀ n : Nat, tryFrom cs k lo n = none →
      ∀ j, lo ≤ j → j ≤ lo + n → k (cs.drop j) = none
  | 0, h, j, h1, h2 => by
    have : j = lo := Nat.le_antisymm (by simpa using h2) h1
    simpa [this] using h
  | n + 1, h, j, h1, h2 => by
    unfold tryFrom at h
    cases hk : k (cs.drop (lo + (n + 1))) with
    | some w => rw [hk] at h; cases h
    | none =>
      rw [hk] at h
      rcases Nat.lt_or_ge j (lo + (n + 1)) with hlt | hge
      · exact tryFrom_none cs k lo n h j h1 (Nat.le_of_lt_succ hlt)
      · have : j = lo + (n + 1) := Nat.le_antisymm h2 hge
        simpa [this] using hk

theorem runAtom_sound (a : Atom) (cs : List Char) (k : List Char → Option α) (v : α)
    (h : runAtom a cs k = some v) :
    ∃ xs ys, cs = xs ++ ys ∧ AtomMatches a xs ∧ k ys = some v := by
  cases a with
  | lit s =>
    have h' : (if s.isPrefixOf cs = true then k (cs.drop s.length) else none) = some v := h
    by_cases hp : s.isPrefixOf cs = true
    · rcases List.isPrefixOf_iff_prefix.mp hp with ⟨t, ht⟩
      refine ⟨s, t, ht.symm, rfl, ?_⟩
      rw [if_pos hp] at h'
      rwa [← ht, List.drop_left] at h'
    · rw [if_neg hp] at h'
      cases h'
  | one p =>
    cases cs with
    | nil => cases h
    | cons c rest =>
      have h' : (if p c = true then k rest else none) = some v := h
      by_cases hp : p c = true
      · rw [if_pos hp] at h'
        exact ⟨[c], rest, rfl, ⟨c, rfl, hp⟩, h'⟩
      · rw [if_neg hp] at h'
        cases h'
  | plus p =>
    have h' : (if munch p cs = 0 then none else tryFrom cs k 1 (munch p cs - 1)) = some v := h
    by_cases hm : munch p cs = 0
    · rw [if_pos hm] at h'
      cases h'
    · rw [if_neg hm] at h'
      rcases tryFrom_sound cs k 1 (munch p cs - 1) v h' with ⟨j, h1, h2, h3⟩
      have hj : j ≤ munch p cs := by omega
      refine ⟨cs.take j, cs.drop j, (List.take_append_drop j cs).symm, ?_, h3⟩
      constructor
      · have hne : cs ≠ [] := by
          intro he
          rw [he] at hm
          exact hm rfl
        have hlen : 0 < cs.length := List.length_pos.mpr hne
        have hmin : (cs.take j).length = min j cs.length := List.length_take j cs
        intro he
        rw [he] at hmin
        simp at hmin
        omega
      · exact munch_take p cs j hj
  | star p =>
    have h' : tryFrom cs k 0 (munch p cs) = some v := h
    rcases tryFrom_sound cs k 0 (munch p cs) v h' with ⟨j, _, h2, h3⟩
    refine ⟨cs.take j, cs.drop j, (List.take_append_drop j cs).symm, ?_, h3⟩
    exact munch_take p cs j (by omega)

theorem runAtom_none (a : Atom) (cs : List Char) (k : List Char → Option α)
    (h : runAtom a cs k = none) :
    ∀ xs ys, cs = xs ++ ys → AtomMatches a xs → k ys = none := by
  intro xs ys hcs hm
  cases a with
  | lit s =>
    have h' : (if s.isPrefixOf cs = true then k (cs.drop s.length) else none) = none := h
    rcases hm with rfl
    have hp : xs.isPrefixOf cs = true := List.isPrefixOf_iff_prefix.mpr ⟨ys, hcs.symm⟩
    rw [if_pos hp] at h'
    rwa [hcs, List.drop_left] at h'
  | one p =>
    rcases hm with ⟨c, rfl, hp⟩
    subst hcs
    have h' : (if p c = true then k ys else none) = none := h
    rwa [if_pos hp] at h'
  | plus p =>
    rcases hm with ⟨hne, hall⟩
    subst hcs
    have hlen : xs.length ≤ munch p (xs ++ ys) := munch_max p xs ys hall
    have hpos : 1 ≤ xs.length := by
      cases xs with
      | nil => exact absurd rfl hne
      | cons a b => simp
    have hm0 : munch p (xs ++ ys) ≠ 0 := by omega
    have h' : (if munch p (xs ++ ys) = 0 then none
        else tryFrom (xs ++ ys) k 1 (munch p (xs ++ ys) - 1)) = none := h
    rw [if_neg hm0] at h'
    have := tryFrom_none (xs ++ ys) k 1 (munch p (xs ++ ys) - 1) h' xs.length hpos (by omega)
    rwa [List.drop_left] at this
  | star p =>
    subst hcs
    have hlen : xs.length ≤ munch p (xs ++ ys) := munch_max p xs ys hm
    have h' : tryFrom (xs ++ ys) k 0 (munch p (xs ++ ys)) = none := h
    have := tryFrom_none (xs ++ ys) k 0 (munch p (xs ++ ys)) h' xs.length (Nat.zero_le _)
      (by omega)
    rwa [List.drop_left] at this

theorem runSeq_sound : ∀ (as : List Atom) (cs : List Char) (k : List Char → Option α) (v : α),
    runSeq as cs k = some v →
    ∃ xs ys, cs = xs ++ ys ∧ SeqMatches as xs ∧ k ys = some v
  | [], cs, k, v, h => ⟨[], cs, rfl, .nil, h⟩
  | a :: as, cs, k, v, h => by
    rcases runAtom_sound a cs _ v h with ⟨xs, ys, hcs, hm, hk⟩
    rcases runSeq_sound as ys k v hk with ⟨xs2, ys2, hys, hm2, hk2⟩
    exact ⟨xs ++ xs2, ys2, by rw [hcs, hys, List.append_assoc], .cons hm hm2, hk2⟩

theorem runSeq_none : ∀ (as : List Atom) (cs : List Char) (k : List Char → Option α),
    runSeq as cs k = none →
    ∀ xs ys, cs = xs ++ ys → SeqMatches as xs → k ys = none
  | [], cs, k, h, xs, ys, hcs, hm => by
    cases hm
    simpa [hcs] using h
  | a :: as, cs, k, h, xs, ys, hcs, hm => by
    cases hm with
    | cons hma hms =>
      rename_i xs1 ys1
      have h1 := runAtom_none a cs _ h xs1 (ys1 ++ ys)
        (by rw [hcs, List.append_assoc]) hma
      exact runSeq_none as (ys1 ++ ys) k h1 ys1 ys rfl hms

end EngineLemmas

theorem matchAt_sound (cs v : List Char) (h : matchAt cs = some v) :
    ∃ a b c d, cs = a ++ (b ++ (c ++ d)) ∧ SeqMatches preAtoms a ∧
      SeqMatches capAtoms b ∧ SeqMatches postAtoms c ∧ v = b := by
  unfold matchAt at h
  rcases runSeq_sound _ _ _ _ h with ⟨a, r1, hcs, hpre, h1⟩
  rcases runSeq_sound _ _ _ _ h1 with ⟨b, r2, hr1, hcap, h2⟩
  rcases runSeq_sound _ _ _ _ h2 with ⟨c, d, hr2, hpost, h3⟩
  have hv : v = r1.take (r1.length - r2.length) := by
    simpa using h3.symm
  refine ⟨a, b, c, d, by rw [hcs, hr1, hr2], hpre, hcap, hpost, ?_⟩
  rw [hv, hr1]
  have hl : (b ++ r2).length - r2.length = b.length := by simp
  rw [hl, List.take_left]

theorem matchAt_isSome (cs a b c d : List Char)
    (hcs : cs = a ++ (b ++ (c ++ d)))
    (hpre : SeqMatches preAtoms a) (hcap : SeqMatches capAtoms b)
    (hpost : SeqMatches postAtoms c) :
    (matchAt cs).isSome := by
  cases hm : matchAt cs with
  | some v => rfl
  | none =>
    exfalso
    unfold matchAt at hm
    have h1 := runSeq_none _ _ _ hm a (b ++ (c ++ d)) hcs hpre
    have h2 := runSeq_none _ _ _ h1 b (c ++ d) rfl hcap
    have h3 := runSeq_none _ _ _ h2 c d rfl hpost
    simp at h3

theorem searchCapture_of_isSome (cs : List Char) (h : (matchAt cs).isSome) :
    searchCapture cs = matchAt cs := by
  cases cs with
  | nil => rfl
  | cons c rest =>
    unfold searchCapture
    cases hm : matchAt (c :: rest) with
    | some v => rfl
    | none => rw [hm] at h; cases h

theorem seqMatches_chars {as : List Atom} {xs : List Char} (h : SeqMatches as xs) :
    ∀ c ∈ xs, ∃ a ∈ as, atomCharsB a c = true := by
  induction h with
  | nil => intro c hc; cases hc
  | cons hma hms ih =>
    rename_i a as xs1 ys1
    intro c hc
    rcases List.mem_append.mp hc with h1 | h2
    · refine ⟨a, by simp, ?_⟩
      cases a with
      | lit s =>
        have he : xs1 = s := hma
        subst he
        simpa [atomCharsB] using h1
      | one p =>
        rcases hma with ⟨c0, he, hp⟩
        rw [he] at h1
        simp only [List.mem_singleton] at h1
        subst h1
        exact hp
      | plus p => exact hma.2 c h1
      | star p => exact hma c h1
    · rcases ih c h2 with ⟨a2, ha2, hc2⟩
      exact ⟨a2, by simp [ha2], hc2⟩

/-- A character excluded by every atom of a sequence does not occur in
anything the sequence matches. -/
theorem seqMatches_avoid {as : List Atom} {xs : List Char} (h : SeqMatches as xs)
    (ch : Char) (hall : ∀ a ∈ as, atomCharsB a ch = false) : ch ∉ xs := by
  intro hmem
  rcases seqMatches_chars h ch hmem with ⟨a, ha, hc⟩
  rw [hall a ha] at hc
  cases hc

theorem preAtoms_no_brace : ∀ a ∈ preAtoms, atomCharsB a '{' = false := by decide

theorem capMatches_shape {b : List Char} (h : SeqMatches capAtoms b) :
    ∃ m, b = '{' :: (m ++ ['}']) := by
  cases h with
  | cons h1 h2 =>
    rename_i xs1 ys1
    have he1 : xs1 = ['{'] := h1
    cases h2 with
    | cons h3 h4 =>
      rename_i xs2 ys2
      cases h4 with
      | cons h5 h6 =>
        rename_i xs3 ys3
        have he3 : xs3 = ['}'] := h5
        cases h6
        subst he1
        subst he3
        exact ⟨xs2, by simp⟩

theorem postMatches_shape {c : List Char} (h : SeqMatches postAtoms c) :
    ∃ w hx, c = w ++ ("--batchresponse_".data ++ (hx ++ "--".data)) ∧
      w ≠ [] ∧ (∀ x ∈ w, wsClass x = true) ∧ hx ≠ [] ∧
      (∀ x ∈ hx, hexDashClass x = true) := by
  cases h with
  | cons h1 h2 =>
    rename_i xs1 ys1
    cases h2 with
    | cons h3 h4 =>
      rename_i xs2 ys2
      have he2 : xs2 = "--batchresponse_".data := h3
      cases h4 with
      | cons h5 h6 =>
        rename_i xs3 ys3
        cases h6 with
        | cons h7 h8 =>
          rename_i xs4 ys4
          have he4 : xs4 = "--".data := h7
          cases h8
          subst he2
          subst he4
          exact ⟨xs1, xs3, by simp, h1.1, h1.2, h5.1, h5.2⟩

/-- Two decompositions of the same list at a `{` that neither left part
contains agree. -/
theorem eq_of_brace_split (x1 x2 t1 t2 : List Char)
    (he : x1 ++ ('{' :: t1) = x2 ++ ('{' :: t2))
    (h1 : ('{' : Char) ∉ x1) (h2 : ('{' : Char) ∉ x2) :
    x1 = x2 ∧ t1 = t2 := by
  have p1 : x1 <+: (x2 ++ ('{' :: t2)) := ⟨'{' :: t1, he⟩
  have p2 : x2 <+: (x2 ++ ('{' :: t2)) := ⟨'{' :: t2, rfl⟩
  have hagree : x1 = x2 := by
    rcases List.prefix_or_prefix_of_prefix p1 p2 with hp | hp
    · rcases hp with ⟨t, rfl⟩
      cases t with
      | nil => simp
      | cons y t' =>
        exfalso
        rw [List.append_assoc] at he
        have := List.append_cancel_left he
        have hy : y = '{' := by
          have := congrArg (fun l => l.head?) this
          simpa using this.symm
        exact h2 (List.mem_append.mpr (Or.inr (by rw [hy]; simp)))
    · rcases hp with ⟨t, rfl⟩
      cases t with
      | nil => simp
      | cons y t' =>
        exfalso
        rw [List.append_assoc] at he
        have := List.append_cancel_left he
        have hy : y = '{' := by
          have := congrArg (fun l => l.head?) this
          simpa using this
        exact h1 (List.mem_append.mpr (Or.inr (by rw [hy]; simp)))
  subst hagree
  have := List.append_cancel_left he
  exact ⟨rfl, by simpa using this⟩

theorem brace_not_in_tail (wsp u2 : List Char)
    (hwsp' : ∀ x ∈ wsp, wsClass x = true)
    (hu2' : ∀ x ∈ u2, hexDashClass x = true) :
    ('}' : Char) ∉ wsp ++ ("--batchresponse_".data ++ (u2 ++ "--".data)) := by
  intro hm
  rcases List.mem_append.mp hm with h | h
  · exact absurd (hwsp' _ h) (by decide)
  rcases List.mem_append.mp h with h | h
  · revert h; decide
  rcases List.mem_append.mp h with h | h
  · exact absurd (hu2' _ h) (by decide)
  · revert h; decide

theorem mem_of_getLast?_eq {l : List Char} {a : Char} (h : l.getLast? = some a) :
    a ∈ l := by
  rcases List.mem_getLast?_eq_getLast (show a ∈ l.getLast? by rw [h]; exact rfl)
    with ⟨hne, he⟩
  exact he ▸ List.getLast_mem hne

/-- The capture consumed by any successful match of the template is exactly
the JSON blob: it cannot end after the blob (nothing past the blob's closing
brace contains another `}` on that line) and it cannot end inside the blob
(the trailing-whitespace-plus-closing-boundary atoms cannot match inside the
blob unless the blob contains the boundary marker, which is excluded). -/
theorem cap_eq_json (b c d mid wsp u2 : List Char)
    (hcap : SeqMatches capAtoms b)
    (hpost : SeqMatches postAtoms c)
    (heq : b ++ (c ++ d) =
      jsonBlob mid ++ (wsp ++ ("--batchresponse_".data ++ (u2 ++ "--".data))))
    (hwsp' : ∀ x ∈ wsp, wsClass x = true)
    (hu2' : ∀ x ∈ u2, hexDashClass x = true)
    (hnb : ¬ "--batchresponse_".data <:+: jsonBlob mid) :
    b = jsonBlob mid := by
  rcases capMatches_shape hcap with ⟨bm, hb⟩
  have hJlast : (jsonBlob mid).getLast? = some '}' := by
    rw [show jsonBlob mid = ('{' :: mid) ++ ['}'] by simp [jsonBlob]]
    exact List.getLast?_concat _
  have hblast : b.getLast? = some '}' := by
    rw [hb, show ('{' :: (bm ++ ['}'])) = ('{' :: bm) ++ ['}'] by simp]
    exact List.getLast?_concat _
  have pb : b <+: (jsonBlob mid ++ (wsp ++ ("--batchresponse_".data ++ (u2 ++ "--".data)))) :=
    ⟨c ++ d, heq⟩
  have pJ : jsonBlob mid <+:
      (jsonBlob mid ++ (wsp ++ ("--batchresponse_".data ++ (u2 ++ "--".data)))) :=
    ⟨wsp ++ ("--batchresponse_".data ++ (u2 ++ "--".data)), rfl⟩
  rcases List.prefix_or_prefix_of_prefix pJ pb with hp | hp
  · rcases hp with ⟨t, hbt⟩
    cases t with
    | nil => simpa using hbt.symm
    | cons y t' =>
      exfalso
      have h1 : b.getLast? = (y :: t').getLast? := by
        rw [← hbt]
        exact List.getLast?_append_of_ne_nil _ (by simp)
      have h2 : ('}' : Char) ∈ y :: t' := mem_of_getLast?_eq (by rw [← h1, hblast])
      have h3 : (y :: t') ++ (c ++ d) =
          wsp ++ ("--batchresponse_".data ++ (u2 ++ "--".data)) := by
        have h5 : (jsonBlob mid ++ (y :: t')) ++ (c ++ d) =
            jsonBlob mid ++ (wsp ++ ("--batchresponse_".data ++ (u2 ++ "--".data))) := by
          rw [hbt]
          exact heq
        rw [List.append_assoc] at h5
        exact List.append_cancel_left h5
      have h4 : (y :: t') <+: wsp ++ ("--batchresponse_".data ++ (u2 ++ "--".data)) :=
        ⟨c ++ d, h3⟩
      exact brace_not_in_tail wsp u2 hwsp' hu2' (h4.subset h2)
  · rcases hp with ⟨t, hJt⟩
    cases t with
    | nil => simpa using hJt
    | cons y t' =>
      exfalso
      have htne : (y :: t' : List Char) ≠ [] := by simp
      have h1 : (y :: t').getLast? = some '}' := by
        rw [← List.getLast?_append_of_ne_nil b htne, hJt, hJlast]
      have h2 : c ++ d = (y :: t') ++ (wsp ++ ("--batchresponse_".data ++ (u2 ++ "--".data))) := by
        have h5 : b ++ (c ++ d) =
            b ++ ((y :: t') ++ (wsp ++ ("--batchresponse_".data ++ (u2 ++ "--".data)))) := by
          conv_lhs => rw [heq]
          rw [← hJt, List.append_assoc]
        exact List.append_cancel_left h5
      rcases postMatches_shape hpost with ⟨w, hx, hc, hwne, hwall, hhxne, hhxall⟩
      have h6 : w ++ ("--batchresponse_".data ++ (hx ++ ("--".data ++ d))) =
          (y :: t') ++ (wsp ++ ("--batchresponse_".data ++ (u2 ++ "--".data))) := by
        rw [← h2, hc]
        simp [List.append_assoc]
      have pw : w <+: ((y :: t') ++ (wsp ++ ("--batchresponse_".data ++ (u2 ++ "--".data)))) :=
        ⟨_, h6⟩
      have pt : (y :: t') <+:
          ((y :: t') ++ (wsp ++ ("--batchresponse_".data ++ (u2 ++ "--".data)))) :=
        ⟨_, rfl⟩
      rcases List.prefix_or_prefix_of_prefix pt pw with hp2 | hp2
      · have hmem : ('}' : Char) ∈ w := hp2.subset (mem_of_getLast?_eq h1)
        exact absurd (hwall _ hmem) (by decide)
      · rcases hp2 with ⟨t2, hwt⟩
        cases t2 with
        | nil =>
          have hw : w = y :: t' := by simpa using hwt
          have hmem : ('}' : Char) ∈ w := by
            rw [hw]
            exact mem_of_getLast?_eq h1
          exact absurd (hwall _ hmem) (by decide)
        | cons z t2' =>
          have h7 : "--batchresponse_".data ++ (hx ++ ("--".data ++ d)) =
              (z :: t2') ++ (wsp ++ ("--batchresponse_".data ++ (u2 ++ "--".data))) := by
            have h8 : w ++ ("--batchresponse_".data ++ (hx ++ ("--".data ++ d))) =
                w ++ ((z :: t2') ++ (wsp ++ ("--batchresponse_".data ++ (u2 ++ "--".data)))) := by
              rw [h6, ← hwt, List.append_assoc]
            exact List.append_cancel_left h8
          have pbd : "--batchresponse_".data <+:
              ((z :: t2') ++ (wsp ++ ("--batchresponse_".data ++ (u2 ++ "--".data)))) :=
            ⟨_, h7⟩
          have pt2 : (z :: t2') <+:
              ((z :: t2') ++ (wsp ++ ("--batchresponse_".data ++ (u2 ++ "--".data)))) :=
            ⟨_, rfl⟩
          rcases List.prefix_or_prefix_of_prefix pbd pt2 with hp3 | hp3
          · have hinf1 : "--batchresponse_".data <:+: (z :: t2') := hp3.isInfix
            have hsuf : (z :: t2') <:+ (y :: t') := ⟨w, hwt⟩
            have hsuf2 : (y :: t') <:+ jsonBlob mid := ⟨b, hJt⟩
            exact hnb ((hinf1.trans hsuf.isInfix).trans hsuf2.isInfix)
          · have hlast2 : (z :: t2').getLast? = some '}' := by
              rw [← List.getLast?_append_of_ne_nil w (by simp : (z :: t2' : List Char) ≠ []),
                hwt, h1]
            have hmem : ('}' : Char) ∈ "--batchresponse_".data :=
              hp3.subset (mem_of_getLast?_eq hlast2)
            revert hmem
            decide

/-- C8: for every batch response body matching the fixed structural template
(opening boundary marker, header-like lines, an HTTP status line, header-like
lines, a single-line `{...}` JSON blob, trailing whitespace, closing boundary
marker — with each part drawn from the character classes of the pattern, and
the blob not itself containing the boundary marker text), `extractBatchData`
returns exactly the inner JSON substring. -/
theorem claim_C8_batch_template_extraction
    (u hd1 num rsn hd2 mid wsp u2 : List Char)
    (c1 c2 c3 c4 c5 c6 c7 c8 d1 d2 : Char)
    (hu : u ≠ []) (hu' : ∀ c ∈ u, hexDashClass c = true)
    (hc1 : wsClass c1 = true)
    (hhd1 : hd1 ≠ []) (hhd1' : ∀ c ∈ hd1, headerClass c = true)
    (hc2 : wsClass c2 = true) (hc3 : wsClass c3 = true)
    (hd1d : d1.isDigit = true) (hd2d : d2.isDigit = true)
    (hc4 : wsClass c4 = true)
    (hnum : num ≠ []) (hnum' : ∀ c ∈ num, c.isDigit = true)
    (hc5 : wsClass c5 = true)
    (hrsn : rsn ≠ []) (hrsn' : ∀ c ∈ rsn, statusWordClass c = true)
    (hc6 : wsClass c6 = true)
    (hhd2 : hd2 ≠ []) (hhd2' : ∀ c ∈ hd2, headerClass c = true)
    (hc7 : wsClass c7 = true) (hc8 : wsClass c8 = true)
    (hmid : ∀ c ∈ mid, dotClass c = true)
    (hwsp : wsp ≠ []) (hwsp' : ∀ c ∈ wsp, wsClass c = true)
    (hu2 : u2 ≠ []) (hu2' : ∀ c ∈ u2, hexDashClass c = true)
    (hnb : ¬ "--batchresponse_".data <:+: jsonBlob mid) :
    extractBatchData (String.mk
        (batchTemplateBody u hd1 num rsn hd2 mid wsp u2 c1 c2 c3 c4 c5 c6 c7 c8 d1 d2)) =
      some (String.mk (jsonBlob mid)) := by
  have hpre : SeqMatches preAtoms
      ("--batchresponse_".data ++ (u ++ ([c1] ++ (hd1 ++ ([c2] ++ ([c3] ++
        ("HTTP/".data ++ ([d1] ++ (['.'] ++ ([d2] ++ ([c4] ++ (num ++ ([c5] ++ (rsn ++
        ([c6] ++ (hd2 ++ ([c7] ++ ([c8] ++ [])))))))))))))))))) :=
    .cons rfl (.cons ⟨hu, hu'⟩ (.cons ⟨c1, rfl, hc1⟩ (.cons ⟨hhd1, hhd1'⟩
      (.cons ⟨c2, rfl, hc2⟩ (.cons ⟨c3, rfl, hc3⟩ (.cons rfl (.cons ⟨d1, rfl, hd1d⟩
      (.cons rfl (.cons ⟨d2, rfl, hd2d⟩ (.cons ⟨c4, rfl, hc4⟩ (.cons ⟨hnum, hnum'⟩
      (.cons ⟨c5, rfl, hc5⟩ (.cons ⟨hrsn, hrsn'⟩ (.cons ⟨c6, rfl, hc6⟩
      (.cons ⟨hhd2, hhd2'⟩ (.cons ⟨c7, rfl, hc7⟩ (.cons ⟨c8, rfl, hc8⟩
      .nil)))))))))))))))))
  have hcap : SeqMatches capAtoms (['{'] ++ (mid ++ (['}'] ++ []))) :=
    .cons rfl (.cons hmid (.cons rfl .nil))
  have hpost : SeqMatches postAtoms
      (wsp ++ ("--batchresponse_".data ++ (u2 ++ ("--".data ++ [])))) :=
    .cons ⟨hwsp, hwsp'⟩ (.cons rfl (.cons ⟨hu2, hu2'⟩ (.cons rfl .nil)))
  have hsplit : batchTemplateBody u hd1 num rsn hd2 mid wsp u2 c1 c2 c3 c4 c5 c6 c7 c8 d1 d2 =
      ("--batchresponse_".data ++ (u ++ ([c1] ++ (hd1 ++ ([c2] ++ ([c3] ++
        ("HTTP/".data ++ ([d1] ++ (['.'] ++ ([d2] ++ ([c4] ++ (num ++ ([c5] ++ (rsn ++
        ([c6] ++ (hd2 ++ ([c7] ++ ([c8] ++ [])))))))))))))))))) ++
      ((['{'] ++ (mid ++ (['}'] ++ []))) ++
        ((wsp ++ ("--batchresponse_".data ++ (u2 ++ ("--".data ++ [])))) ++ [])) := by
    simp [batchTemplateBody, jsonBlob, List.append_assoc]
  have hsome : (matchAt
      (batchTemplateBody u hd1 num rsn hd2 mid wsp u2 c1 c2 c3 c4 c5 c6 c7 c8 d1 d2)).isSome :=
    matchAt_isSome _ _ _ _ _ hsplit hpre hcap hpost
  rcases Option.isSome_iff_exists.mp hsome with ⟨v, hv⟩
  have hsearch : searchCapture
      (batchTemplateBody u hd1 num rsn hd2 mid wsp u2 c1 c2 c3 c4 c5 c6 c7 c8 d1 d2) = some v := by
    rw [searchCapture_of_isSome _ hsome, hv]
  rcases matchAt_sound _ v hv with ⟨a, b, c, d, hdec, hpre', hcap', hpost', hvb⟩
  have hanb : ('{' : Char) ∉ a := seqMatches_avoid hpre' '{' preAtoms_no_brace
  have hAnb : ('{' : Char) ∉
      ("--batchresponse_".data ++ (u ++ ([c1] ++ (hd1 ++ ([c2] ++ ([c3] ++
        ("HTTP/".data ++ ([d1] ++ (['.'] ++ ([d2] ++ ([c4] ++ (num ++ ([c5] ++ (rsn ++
        ([c6] ++ (hd2 ++ ([c7] ++ ([c8] ++ [])))))))))))))))))) :=
    seqMatches_avoid hpre '{' preAtoms_no_brace
  rcases capMatches_shape hcap' with ⟨bm, hb⟩
  have heqsplit : a ++ ('{' :: ((bm ++ ['}']) ++ (c ++ d))) =
      ("--batchresponse_".data ++ (u ++ ([c1] ++ (hd1 ++ ([c2] ++ ([c3] ++
        ("HTTP/".data ++ ([d1] ++ (['.'] ++ ([d2] ++ ([c4] ++ (num ++ ([c5] ++ (rsn ++
        ([c6] ++ (hd2 ++ ([c7] ++ ([c8] ++ [])))))))))))))))))) ++
      ('{' :: ((mid ++ ['}']) ++ (wsp ++ ("--batchresponse_".data ++ (u2 ++ "--".data))))) := by
    rw [show ('{' : Char) :: ((bm ++ ['}']) ++ (c ++ d))
        = ('{' :: (bm ++ ['}'])) ++ (c ++ d) from rfl, ← hb, ← hdec]
    simp [batchTemplateBody, jsonBlob, List.append_assoc]
  obtain ⟨-, hrest⟩ := eq_of_brace_split _ _ _ _ heqsplit hanb hAnb
  have heq2 : b ++ (c ++ d) =
      jsonBlob mid ++ (wsp ++ ("--batchresponse_".data ++ (u2 ++ "--".data))) := by
    rw [hb]
    show ('{' : Char) :: ((bm ++ ['}']) ++ (c ++ d)) =
      ('{' : Char) :: ((mid ++ ['}']) ++ (wsp ++ ("--batchresponse_".data ++ (u2 ++ "--".data))))
    exact congrArg (List.cons '{') hrest
  have hbJ : b = jsonBlob mid :=
    cap_eq_json b c d mid wsp u2 hcap' hpost' heq2 hwsp' hu2' hnb
  show (searchCapture
      (batchTemplateBody u hd1 num rsn hd2 mid wsp u2 c1 c2 c3 c4 c5 c6 c7 c8 d1 d2)).map
        String.mk = some (String.mk (jsonBlob mid))
  rw [hsearch, hvb, hbJ]
  rfl

/-- C8 witness: the documented response format at concrete values — body
`--batchresponse_a\nA\n\nHTTP/1.1 200 OK\nB\n\n{}\n--batchresponse_ff--` —
from which the extraction returns exactly `{}`. -/
theorem claim_C8_batch_template_extraction_witness :
    ((['a'] : List Char) ≠ [] ∧ (∀ c ∈ (['a'] : List Char), hexDashClass c = true) ∧
      wsClass '\n' = true ∧ wsClass ' ' = true ∧
      (['A'] : List Char) ≠ [] ∧ (∀ c ∈ (['A'] : List Char), headerClass c = true) ∧
      ('1' : Char).isDigit = true ∧
      "200".data ≠ [] ∧ (∀ c ∈ "200".data, c.isDigit = true) ∧
      "OK".data ≠ [] ∧ (∀ c ∈ "OK".data, statusWordClass c = true) ∧
      (['B'] : List Char) ≠ [] ∧ (∀ c ∈ (['B'] : List Char), headerClass c = true) ∧
      (∀ c ∈ ([] : List Char), dotClass c = true) ∧
      (['\n'] : List Char) ≠ [] ∧ (∀ c ∈ (['\n'] : List Char), wsClass c = true) ∧
      (['f', 'f'] : List Char) ≠ [] ∧ (∀ c ∈ (['f', 'f'] : List Char), hexDashClass c = true) ∧
      ¬ "--batchresponse_".data <:+: jsonBlob []) ∧
    extractBatchData (String.mk (batchTemplateBody ['a'] ['A'] "200".data "OK".data ['B']
        [] ['\n'] ['f', 'f'] '\n' '\n' '\n' ' ' ' ' '\n' '\n' '\n' '1' '1')) =
      some (String.mk (jsonBlob [])) :=
  ⟨by decide,
    claim_C8_batch_template_extraction ['a'] ['A'] "200".data "OK".data ['B']
      [] ['\n'] ['f', 'f'] '\n' '\n' '\n' ' ' ' ' '\n' '\n' '\n' '1' '1'
      (by decide) (by decide) (by decide) (by decide) (by decide) (by decide)
      (by decide) (by decide) (by decide) (by decide) (by decide) (by decide)
      (by decide) (by decide) (by decide) (by decide) (by decide) (by decide)
      (by decide) (by decide) (by decide) (by decide) (by decide) (by decide)
      (by decide) (by decide)⟩

end CRM
